import Mathlib

/-!
Verification of the raycasting engine in `src/index.ts`.

The TypeScript source works on IEEE doubles; the embedding idealises every
numeric value as a rational number (`ℚ`).  The one systematic change this
forces is that the strict comparison of Euclidean distances inside `rayStep`
(`p2.distanceTo(temp) < p2.distanceTo(p3)`) is embedded as the comparison of
the squared distances (`sqrDistanceTo`): square root is strictly monotone on
nonnegative values, so both comparisons pick the same candidate.  Claims that
genuinely need the square root (`Vector2D.norm`) are handled by a parallel
real-valued vector type `Vector2R` using `Real.sqrt`.

`castRay`'s `while` loop is embedded with an explicit fuel parameter
(`castRayAux`); `none` means the fuel ran out before the loop finished, so a
statement `∃ fuel r, castRayFuel … = some r` is exactly termination of the
source loop, and `∀ fuel, castRayFuel … = none` is divergence.

JavaScript array indexing distinguishes a stored `null` from a missing index
(`undefined`); both compare `!== null` differently, which matters on ragged
scenes.  The embedding keeps the distinction: a cell lookup returns
`Option (Option CellVal)` where `none` is `undefined` (missing) and
`some none` is a stored `null` (empty cell).
-/

namespace Raycasting

/-- `const EPS = 1e-6` of `src/index.ts`. -/
def EPS : ℚ := 1 / 1000000

/-- `const FAR_CLIPPING_PLANE = 12.0` of `src/index.ts`. -/
def FAR_CLIPPING_PLANE : ℚ := 12

/-- `Number.MIN_VALUE`, the smallest positive IEEE double, used by
`sceneSize` as the seed of the row-length maximum. -/
def NUMBER_MIN_VALUE : ℚ := 1 / 2 ^ 1074

/-- The planar vector class `Vector2D` of `src/index.ts` (lines 65-139),
restricted to the fields and the methods the verified claims use. -/
structure Vector2D where
  x : ℚ
  y : ℚ
deriving DecidableEq

namespace Vector2D

/-- `Vector2D.zero()`. -/
def zero : Vector2D := ⟨0, 0⟩

/-- `add(that)`. -/
def add (a b : Vector2D) : Vector2D := ⟨a.x + b.x, a.y + b.y⟩

/-- `sub(that)`. -/
def sub (a b : Vector2D) : Vector2D := ⟨a.x - b.x, a.y - b.y⟩

/-- `scale(factor)`. -/
def scale (a : Vector2D) (factor : ℚ) : Vector2D := ⟨a.x * factor, a.y * factor⟩

/-- `sqrLength()`. -/
def sqrLength (a : Vector2D) : ℚ := a.x * a.x + a.y * a.y

/-- `sqrDistanceTo(that)`: `that.sub(this).sqrLength()`. -/
def sqrDistanceTo (a b : Vector2D) : ℚ := (b.sub a).sqrLength

/-- `dot(that)`. -/
def dot (a b : Vector2D) : ℚ := a.x * b.x + a.y * b.y

/-- `lerp(that, t)`: `that.sub(this).scale(t).add(this)`. -/
def lerp (a b : Vector2D) (t : ℚ) : Vector2D := (((b.sub a).scale t).add a)

end Vector2D

/-- `Math.sign` on the rationals. -/
def sign (q : ℚ) : ℚ := if 0 < q then 1 else if q < 0 then -1 else 0

/-- `snap(x, dx)` of `src/index.ts` lines 188-192. -/
def snap (x dx : ℚ) : ℚ :=
  if 0 < dx then ⌈x + EPS⌉
  else if dx < 0 then ⌊x + -EPS⌋
  else x

/-- `hittingCell(p1, p2)` of `src/index.ts` lines 194-200.  The resulting
cell indices are integers stored, as in the source, in a `Vector2D`. -/
def hittingCell (p1 p2 : Vector2D) : Vector2D :=
  let d := p2.sub p1
  ⟨(⌊p2.x + sign d.x * EPS⌋ : ℤ), (⌊p2.y + sign d.y * EPS⌋ : ℤ)⟩

/-- `rayStep(p1, p2)` of `src/index.ts` lines 202-231.  The candidate
comparison uses squared distances (see the file comment). -/
def rayStep (p1 p2 : Vector2D) : Vector2D :=
  let d := p2.sub p1
  if d.x ≠ 0 then
    let k := d.y / d.x
    let c := p1.y - k * p1.x
    let x3 := snap p2.x d.x
    let p3 : Vector2D := ⟨x3, x3 * k + c⟩
    if k ≠ 0 then
      let y3 := snap p2.y d.y
      let temp : Vector2D := ⟨(y3 - c) / k, y3⟩
      if p2.sqrDistanceTo temp < p2.sqrDistanceTo p3 then temp else p3
    else p3
  else
    ⟨p2.x, snap p2.y d.y⟩

/-- The `Color` class of `src/index.ts` (lines 10-63), channels as
rationals. -/
structure Color where
  r : ℚ
  g : ℚ
  b : ℚ
  a : ℚ
deriving DecidableEq

namespace Color

/-- `Color.red()`. -/
def red : Color := ⟨84/100, 8/100, 5/100, 1⟩

/-- `brightness(factor)` of `src/index.ts` lines 35-53. -/
def brightness (c : Color) (factor : ℚ) : Color :=
  let f := if 1 < factor then 1 else if factor < -1 then -1 else factor
  if f < 0 then
    let f2 := 1 + f
    ⟨c.r * f2, c.g * f2, c.b * f2, c.a⟩
  else
    ⟨(1 - c.r) * f + c.r, (1 - c.g) * f + c.g, (1 - c.b) * f + c.b, c.a⟩

end Color

/-- A stored grid cell: `Color | OffscreenCanvas`.  The canvas contents are
irrelevant to the verified claims, only its identity as a non-color cell. -/
inductive CellVal where
  | color (c : Color)
  | texture (w h : ℕ)
deriving DecidableEq

/-- `type Scene = Array<Array<Color | OffscreenCanvas | null>>`.
`some none` is a stored `null`; a missing index is JS `undefined`. -/
abbrev Scene := List (List (Option CellVal))

/-- JavaScript array indexing: `undefined` (here `none`) outside the stored
range, including negative indices. -/
def jsIndex {α : Type} (l : List α) (i : ℤ) : Option α :=
  if 0 ≤ i then l.get? i.toNat else none

/-- `sceneSize(scene)` of `src/index.ts` lines 233-240: height is the row
count, width the running maximum of the row lengths seeded with
`Number.MIN_VALUE`. -/
def sceneSize (scene : Scene) : Vector2D :=
  ⟨scene.foldl (fun acc row => max acc (row.length : ℚ)) NUMBER_MIN_VALUE,
   (scene.length : ℚ)⟩

/-- `insideScene(scene, p)` of `src/index.ts` lines 305-308. -/
def insideScene (scene : Scene) (p : Vector2D) : Bool :=
  let size := sceneSize scene
  decide (0 ≤ p.x) && decide (p.x < size.x) && decide (0 ≤ p.y) &&
    decide (p.y < size.y)

/-- The dereference `scene[c.y][c.x]` for a cell point `c` whose coordinates
are integral rationals (as produced by `hittingCell`). -/
def lookupCellV (scene : Scene) (c : Vector2D) : Option (Option CellVal) :=
  match jsIndex scene ⌊c.y⌋ with
  | none => none
  | some row => jsIndex row ⌊c.x⌋

/-- The JavaScript test `v !== null`: true for every value except a stored
`null` — in particular true for `undefined` (a missing cell). -/
def jsNotNull (v : Option (Option CellVal)) : Bool :=
  match v with
  | some none => false
  | _ => true

/-- The stop test of `castRay`:
`insideScene(scene, c) && scene[c.y][c.x] !== null` at a cell point `c`. -/
def hitTest (scene : Scene) (c : Vector2D) : Bool :=
  insideScene scene c && jsNotNull (lookupCellV scene c)

/-- The stop test of `castRay` at the current sample pair. -/
def stopHit (scene : Scene) (p1 p2 : Vector2D) : Bool :=
  hitTest scene (hittingCell p1 p2)

/-- The `while` loop of `castRay` (`src/index.ts` lines 310-320) with an
explicit fuel; `start` is the loop-invariant copy of the original `p1`. -/
def castRayAux (scene : Scene) (start : Vector2D) :
    Vector2D → Vector2D → ℕ → Option Vector2D
  | _, _, 0 => none
  | p1, p2, n + 1 =>
    if start.sqrDistanceTo p1 < FAR_CLIPPING_PLANE ^ 2 then
      if stopHit scene p1 p2 then some p2
      else castRayAux scene start p2 (rayStep p1 p2) n
    else some p2

/-- `castRay(scene, p1, p2)` with fuel. -/
def castRayFuel (scene : Scene) (p1 p2 : Vector2D) (fuel : ℕ) :
    Option Vector2D :=
  castRayAux scene p1 p1 p2 fuel

/-- An axis-aligned screen rectangle as passed to `ctx.fillRect`. -/
structure Rect where
  x : ℚ
  y : ℚ
  w : ℚ
  h : ℚ
deriving DecidableEq

/-- Modelled from the spec's words, for comparison with the code: "depth =
dot(hit − playerPosition, unitForward(playerHeading)) — the signed distance
along the view axis". -/
def specDepth (pos hit fwd : Vector2D) : ℚ := (hit.sub pos).dot fwd

/-- One iteration of the column loop of `renderScene` (`src/index.ts` lines
329-372), returning the destination rectangle it fills (the `fillRect`
arguments of the solid-color branch, equally the destination rectangle of the
texture branch's `drawImage`), or `none` when the column draws nothing.  The
forward vector `fwd` stands for `Vector2D.fromAngle(player.direction)` and
the near-plane ends `pA`, `pB` for `player.view()`; `H` is
`ctx.canvas.height`. -/
def renderColumn (scene : Scene) (H : ℚ) (pos fwd pA pB : Vector2D)
    (stripWidth : ℚ) (stripCount : ℕ) (x : ℕ) (fuel : ℕ) : Option Rect :=
  match castRayFuel scene pos (pA.lerp pB ((x : ℚ) / stripCount)) fuel with
  | none => none
  | some p =>
    let c := hittingCell pos p
    if insideScene scene c then
      match lookupCellV scene c with
      | some (some _) =>
        let v := p.sub pos
        let stripHeight := H / v.dot fwd
        some ⟨(x : ℚ) * stripWidth - 1, (H - stripHeight) * (1/2),
              stripWidth + 1, stripHeight⟩
      | _ => none
    else none

/-- A scene is rectangular when all rows share one positive stored length. -/
def isRectangular (scene : Scene) : Prop :=
  ∃ w : ℕ, 0 < w ∧ ∀ row ∈ scene, row.length = w

/-- A real-valued copy of `Vector2D` for the square-root-dependent method
`norm()` (`src/index.ts` lines 102-114). -/
structure Vector2R where
  x : ℝ
  y : ℝ

namespace Vector2R

/-- `Vector2D.zero()`. -/
def zero : Vector2R := ⟨0, 0⟩

/-- `scale(factor)`. -/
def scale (v : Vector2R) (factor : ℝ) : Vector2R := ⟨v.x * factor, v.y * factor⟩

/-- `length()`: `Math.sqrt(x*x + y*y)`. -/
noncomputable def length (v : Vector2R) : ℝ := Real.sqrt (v.x * v.x + v.y * v.y)

/-- `norm()` of `src/index.ts` lines 110-114. -/
noncomputable def norm (v : Vector2R) : Vector2R :=
  if v.length = 0 then zero else v.scale (1 / v.length)

end Vector2R

/-! ## Helper lemmas -/

theorem ceil_as_floor (a : ℚ) : ⌈a⌉ = -⌊-a⌋ := by
  rw [Int.floor_neg, neg_neg]

theorem EPS_pos : 0 < EPS := by norm_num [EPS]

theorem snap_ge (x dx : ℚ) (h : 0 < dx) : x + EPS ≤ snap x dx := by
  unfold snap
  rw [if_pos h]
  exact Int.le_ceil (x + EPS)

theorem snap_le (x dx : ℚ) (h : dx < 0) : snap x dx ≤ x - EPS := by
  unfold snap
  rw [if_neg (by linarith), if_pos h]
  calc ((⌊x + -EPS⌋ : ℤ) : ℚ) ≤ x + -EPS := Int.floor_le _
    _ = x - EPS := by ring

theorem snap_zero (x : ℚ) : snap x 0 = x := by
  unfold snap
  norm_num

theorem snap_t_bound (x dx a : ℚ) (ha : 0 < a) (hdx : dx ≠ 0) :
    EPS / |dx| ≤ (snap x (a * dx) - x) / dx := by
  rcases hdx.lt_or_lt with hneg | hpos
  · have hax : a * dx < 0 := mul_neg_of_pos_of_neg ha hneg
    have h1 : snap x (a * dx) ≤ x - EPS := snap_le _ _ hax
    have hd2 : (0 : ℚ) < -dx := by linarith
    rw [abs_of_neg hneg]
    calc EPS / -dx ≤ (x - snap x (a * dx)) / -dx :=
          (div_le_div_iff_of_pos_right hd2).mpr (by linarith)
      _ = (snap x (a * dx) - x) / dx := by
          rw [div_neg, ← neg_div, neg_sub]
  · have hax : 0 < a * dx := mul_pos ha hpos
    have h1 : x + EPS ≤ snap x (a * dx) := snap_ge _ _ hax
    rw [abs_of_pos hpos]
    exact (div_le_div_iff_of_pos_right hpos).mpr (by linarith)

theorem rayStep_advance (d : Vector2D) (hd : ¬(d.x = 0 ∧ d.y = 0))
    (p1 p2 : Vector2D) (a : ℚ) (ha : 0 < a)
    (hx : p2.x = p1.x + a * d.x) (hy : p2.y = p1.y + a * d.y) :
    ∃ t : ℚ, EPS / max |d.x| |d.y| ≤ t ∧
      (rayStep p1 p2).x = p2.x + t * d.x ∧
      (rayStep p1 p2).y = p2.y + t * d.y := by
  have h1 : (p2.sub p1).x = a * d.x := by
    simp only [Vector2D.sub, hx]
    ring
  have h2 : (p2.sub p1).y = a * d.y := by
    simp only [Vector2D.sub, hy]
    ring
  by_cases hdx : d.x = 0
  · have hdy : d.y ≠ 0 := fun hdy => hd ⟨hdx, hdy⟩
    have hmax : max |d.x| |d.y| = |d.y| := by
      rw [hdx, abs_zero]
      exact max_eq_right (abs_nonneg _)
    have hsubx : ¬(p2.sub p1).x ≠ 0 := by
      rw [h1, hdx, mul_zero]
      exact not_not_intro rfl
    have hstep : rayStep p1 p2 = ⟨p2.x, snap p2.y (a * d.y)⟩ := by
      simp only [rayStep, h2]
      rw [if_neg hsubx]
    refine ⟨(snap p2.y (a * d.y) - p2.y) / d.y, ?_, ?_, ?_⟩
    · rw [hmax]
      exact snap_t_bound p2.y d.y a ha hdy
    · rw [hstep, hdx]
      ring
    · rw [hstep]
      field_simp
  · have hax : a * d.x ≠ 0 := mul_ne_zero (ne_of_gt ha) hdx
    have hk : a * d.y / (a * d.x) = d.y / d.x := mul_div_mul_left _ _ (ne_of_gt ha)
    have hmx : EPS / max |d.x| |d.y| ≤ EPS / |d.x| :=
      div_le_div_of_nonneg_left (le_of_lt EPS_pos) (abs_pos.mpr hdx)
        (le_max_left _ _)
    have hline : ∀ u : ℚ,
        u * (d.y / d.x) + (p1.y - d.y / d.x * p1.x) =
          p2.y + (u - p2.x) / d.x * d.y := by
      intro u
      rw [hx, hy]
      field_simp
      ring
    have hA1 : snap p2.x (a * d.x) = p2.x + (snap p2.x (a * d.x) - p2.x) / d.x * d.x := by
      field_simp
    by_cases hdy : d.y = 0
    · have hknz : ¬(d.y / d.x ≠ 0) := by
        rw [hdy, zero_div]
        exact not_not_intro rfl
      have hmax : max |d.x| |d.y| = |d.x| := by
        rw [hdy, abs_zero]
        exact max_eq_left (abs_nonneg _)
      have hstep : rayStep p1 p2 =
          ⟨snap p2.x (a * d.x),
           snap p2.x (a * d.x) * (d.y / d.x) + (p1.y - d.y / d.x * p1.x)⟩ := by
        simp only [rayStep, h1, h2, hk]
        rw [if_pos hax, if_neg hknz]
      refine ⟨(snap p2.x (a * d.x) - p2.x) / d.x, ?_, ?_, ?_⟩
      · rw [hmax]
        exact snap_t_bound p2.x d.x a ha hdx
      · rw [hstep]
        exact hA1
      · rw [hstep]
        exact hline _
    · have hmy : EPS / max |d.x| |d.y| ≤ EPS / |d.y| :=
        div_le_div_of_nonneg_left (le_of_lt EPS_pos) (abs_pos.mpr hdy)
          (le_max_right _ _)
      have hknz : d.y / d.x ≠ 0 := div_ne_zero hdy hdx
      have hstep : rayStep p1 p2 =
          if p2.sqrDistanceTo
              ⟨(snap p2.y (a * d.y) - (p1.y - d.y / d.x * p1.x)) / (d.y / d.x),
               snap p2.y (a * d.y)⟩ <
            p2.sqrDistanceTo
              ⟨snap p2.x (a * d.x),
               snap p2.x (a * d.x) * (d.y / d.x) + (p1.y - d.y / d.x * p1.x)⟩
          then
            ⟨(snap p2.y (a * d.y) - (p1.y - d.y / d.x * p1.x)) / (d.y / d.x),
             snap p2.y (a * d.y)⟩
          else
            ⟨snap p2.x (a * d.x),
             snap p2.x (a * d.x) * (d.y / d.x) + (p1.y - d.y / d.x * p1.x)⟩ := by
        simp only [rayStep, h1, h2, hk]
        rw [if_pos hax, if_pos hknz]
      have hB1 : (snap p2.y (a * d.y) - (p1.y - d.y / d.x * p1.x)) / (d.y / d.x) =
          p2.x + (snap p2.y (a * d.y) - p2.y) / d.y * d.x := by
        have hb2 := hline (p2.x + (snap p2.y (a * d.y) - p2.y) / d.y * d.x)
        have hb3 : (p2.x + (snap p2.y (a * d.y) - p2.y) / d.y * d.x - p2.x) / d.x * d.y =
            snap p2.y (a * d.y) - p2.y := by
          field_simp
          ring
        rw [hb3] at hb2
        have hb4 : (p2.x + (snap p2.y (a * d.y) - p2.y) / d.y * d.x) * (d.y / d.x) +
            (p1.y - d.y / d.x * p1.x) = snap p2.y (a * d.y) := by
          rw [hb2]
          ring
        field_simp at hb4 ⊢
        linarith [hb4]
      rw [hstep]
      by_cases hcmp : p2.sqrDistanceTo
          ⟨(snap p2.y (a * d.y) - (p1.y - d.y / d.x * p1.x)) / (d.y / d.x),
           snap p2.y (a * d.y)⟩ <
          p2.sqrDistanceTo
          ⟨snap p2.x (a * d.x),
           snap p2.x (a * d.x) * (d.y / d.x) + (p1.y - d.y / d.x * p1.x)⟩
      · refine ⟨(snap p2.y (a * d.y) - p2.y) / d.y, ?_, ?_, ?_⟩
        · exact le_trans hmy (snap_t_bound p2.y d.y a ha hdy)
        · rw [if_pos hcmp]
          exact hB1
        · rw [if_pos hcmp]
          field_simp
      · refine ⟨(snap p2.x (a * d.x) - p2.x) / d.x, ?_, ?_, ?_⟩
        · exact le_trans hmx (snap_t_bound p2.x d.x a ha hdx)
        · rw [if_neg hcmp]
          exact hA1
        · rw [if_neg hcmp]
          exact hline _

theorem max_abs_pos (d : Vector2D) (hd : ¬(d.x = 0 ∧ d.y = 0)) :
    0 < max |d.x| |d.y| := by
  rcases not_and_or.mp hd with h | h
  · exact lt_of_lt_of_le (abs_pos.mpr h) (le_max_left _ _)
  · exact lt_of_lt_of_le (abs_pos.mpr h) (le_max_right _ _)

theorem sub_ne_zero_comps (p1 p2 : Vector2D) (hd : p2.sub p1 ≠ Vector2D.zero) :
    ¬((p2.sub p1).x = 0 ∧ (p2.sub p1).y = 0) := by
  intro hcomp
  apply hd
  have heta : p2.sub p1 = (⟨(p2.sub p1).x, (p2.sub p1).y⟩ : Vector2D) := rfl
  rw [heta, hcomp.1, hcomp.2]
  rfl

theorem rayStep_self (p : Vector2D) : rayStep p p = p := by
  simp [rayStep, Vector2D.sub, sub_self, snap_zero]

theorem castRayAux_stuck (scene : Scene) (start p : Vector2D)
    (hg : start.sqrDistanceTo p < FAR_CLIPPING_PLANE ^ 2)
    (hs : stopHit scene p p = false) :
    ∀ n, castRayAux scene start p p n = none := by
  intro n
  induction n with
  | zero => rfl
  | succ n ih =>
    rw [castRayAux, if_pos hg, if_neg (by simp [hs]), rayStep_self]
    exact ih

theorem castRayAux_reaches (scene : Scene) (d : Vector2D)
    (hd : ¬(d.x = 0 ∧ d.y = 0)) :
    ∀ (n : ℕ) (b a : ℚ) (start p1 p2 : Vector2D),
      0 ≤ b →
      min (EPS / max |d.x| |d.y|) 1 ≤ a →
      p1.x = start.x + b * d.x → p1.y = start.y + b * d.y →
      p2.x = p1.x + a * d.x → p2.y = p1.y + a * d.y →
      FAR_CLIPPING_PLANE ^ 2 ≤
        (d.x ^ 2 + d.y ^ 2) * (b + n * min (EPS / max |d.x| |d.y|) 1) ^ 2 →
      ∃ r, castRayAux scene start p1 p2 (n + 1) = some r ∧
        ((∃ q, stopHit scene q r = true) ∨
          FAR_CLIPPING_PLANE ^ 2 ≤ start.sqrDistanceTo r) := by
  have hm : 0 < max |d.x| |d.y| := max_abs_pos d hd
  set T := min (EPS / max |d.x| |d.y|) 1 with hTdef
  have ht0 : 0 < T := lt_min (div_pos EPS_pos hm) one_pos
  have hQ0 : (0 : ℚ) ≤ d.x ^ 2 + d.y ^ 2 := by positivity
  intro n
  induction n with
  | zero =>
    intro b a start p1 p2 hb ha hp1x hp1y hp2x hp2y hbound
    push_cast at hbound
    have hsq1 : start.sqrDistanceTo p1 = (d.x ^ 2 + d.y ^ 2) * b ^ 2 := by
      simp only [Vector2D.sqrDistanceTo, Vector2D.sqrLength, Vector2D.sub,
        hp1x, hp1y]
      ring
    have hbound2 : FAR_CLIPPING_PLANE ^ 2 ≤ (d.x ^ 2 + d.y ^ 2) * b ^ 2 := by
      calc FAR_CLIPPING_PLANE ^ 2 ≤ (d.x ^ 2 + d.y ^ 2) * (b + 0 * T) ^ 2 :=
            hbound
        _ = (d.x ^ 2 + d.y ^ 2) * b ^ 2 := by ring
    have hguard : ¬ start.sqrDistanceTo p1 < FAR_CLIPPING_PLANE ^ 2 := by
      rw [not_lt, hsq1]
      exact hbound2
    refine ⟨p2, by rw [castRayAux, if_neg hguard], Or.inr ?_⟩
    have hsq2 : start.sqrDistanceTo p2 = (d.x ^ 2 + d.y ^ 2) * (b + a) ^ 2 := by
      simp only [Vector2D.sqrDistanceTo, Vector2D.sqrLength, Vector2D.sub,
        hp2x, hp2y, hp1x, hp1y]
      ring
    rw [hsq2]
    have ha0 : 0 < a := lt_of_lt_of_le ht0 ha
    have hmono : (d.x ^ 2 + d.y ^ 2) * b ^ 2 ≤
        (d.x ^ 2 + d.y ^ 2) * (b + a) ^ 2 := by
      apply mul_le_mul_of_nonneg_left _ hQ0
      apply pow_le_pow_left₀ hb (by linarith) 2
    linarith
  | succ n ih =>
    intro b a start p1 p2 hb ha hp1x hp1y hp2x hp2y hbound
    push_cast at hbound
    have ha0 : 0 < a := lt_of_lt_of_le ht0 ha
    by_cases hguard : start.sqrDistanceTo p1 < FAR_CLIPPING_PLANE ^ 2
    · by_cases hstop : stopHit scene p1 p2 = true
      · exact ⟨p2, by rw [castRayAux, if_pos hguard, if_pos hstop],
          Or.inl ⟨p1, hstop⟩⟩
      · obtain ⟨t, ht, hrx, hry⟩ := rayStep_advance d hd p1 p2 a ha0 hp2x hp2y
        have hat : T ≤ t := le_trans (min_le_left _ _) ht
        have hbound3 : FAR_CLIPPING_PLANE ^ 2 ≤
            (d.x ^ 2 + d.y ^ 2) * (b + a + n * T) ^ 2 := by
          have hn0 : (0 : ℚ) ≤ (n : ℚ) := Nat.cast_nonneg n
          have h2 : (0 : ℚ) ≤ b + ((n : ℚ) + 1) * T := by nlinarith
          have h1 : b + ((n : ℚ) + 1) * T ≤ b + a + n * T := by linarith
          have hmono2 : (d.x ^ 2 + d.y ^ 2) * (b + ((n : ℚ) + 1) * T) ^ 2 ≤
              (d.x ^ 2 + d.y ^ 2) * (b + a + n * T) ^ 2 :=
            mul_le_mul_of_nonneg_left (pow_le_pow_left₀ h2 h1 2) hQ0
          have hbound4 : FAR_CLIPPING_PLANE ^ 2 ≤
              (d.x ^ 2 + d.y ^ 2) * (b + ((n : ℚ) + 1) * T) ^ 2 := by
            linarith [hbound]
          linarith
        have hrec := ih (b + a) t start p2 (rayStep p1 p2)
          (by linarith) hat
          (by rw [hp2x, hp1x]; ring) (by rw [hp2y, hp1y]; ring) hrx hry hbound3
        obtain ⟨r, hr, hpost⟩ := hrec
        refine ⟨r, ?_, hpost⟩
        rw [castRayAux, if_pos hguard, if_neg (by simp [hstop])]
        exact hr
    · refine ⟨p2, by rw [castRayAux, if_neg hguard], Or.inr ?_⟩
      have hsq1 : start.sqrDistanceTo p1 = (d.x ^ 2 + d.y ^ 2) * b ^ 2 := by
        simp only [Vector2D.sqrDistanceTo, Vector2D.sqrLength, Vector2D.sub,
          hp1x, hp1y]
        ring
      have hsq2 : start.sqrDistanceTo p2 = (d.x ^ 2 + d.y ^ 2) * (b + a) ^ 2 := by
        simp only [Vector2D.sqrDistanceTo, Vector2D.sqrLength, Vector2D.sub,
          hp2x, hp2y, hp1x, hp1y]
        ring
      have hmono : (d.x ^ 2 + d.y ^ 2) * b ^ 2 ≤
          (d.x ^ 2 + d.y ^ 2) * (b + a) ^ 2 := by
        apply mul_le_mul_of_nonneg_left _ hQ0
        apply pow_le_pow_left₀ hb (by linarith) 2
      rw [not_lt, hsq1] at hguard
      rw [hsq2]
      linarith

/-! ## Claim theorems -/

/-- Claim C3: a sample landing exactly on an integer grid line `n`,
approached with direction `d = p2 - p1`, is attributed by `hittingCell` to
the cell on the `sign(d)` side of the line: column `n` when the axis
component of `d` is positive, column `n - 1` when it is negative, on either
axis. -/
theorem hittingCell_entering (p1 p2 : Vector2D) (n : ℤ) :
    (p2.x = (n : ℚ) →
      (0 < (p2.sub p1).x → (hittingCell p1 p2).x = (n : ℚ)) ∧
      ((p2.sub p1).x < 0 → (hittingCell p1 p2).x = (n : ℚ) - 1)) ∧
    (p2.y = (n : ℚ) →
      (0 < (p2.sub p1).y → (hittingCell p1 p2).y = (n : ℚ)) ∧
      ((p2.sub p1).y < 0 → (hittingCell p1 p2).y = (n : ℚ) - 1)) := by
  have hup : ∀ m : ℤ, ⌊(m : ℚ) + 1 * EPS⌋ = m := by
    intro m
    rw [show (m : ℚ) + 1 * EPS = (m : ℚ) + EPS by ring, Int.floor_int_add]
    norm_num [EPS]
  have hdown : ∀ m : ℤ, ⌊(m : ℚ) + -1 * EPS⌋ = m - 1 := by
    intro m
    rw [show (m : ℚ) + -1 * EPS = (m : ℚ) + -EPS by ring, Int.floor_int_add]
    norm_num [EPS]
    omega
  constructor
  · intro hx
    constructor
    · intro hd
      simp only [hittingCell, sign, if_pos hd, hx, hup]
    · intro hd
      simp only [hittingCell, sign, if_neg (by linarith : ¬(0 : ℚ) < (p2.sub p1).x),
        if_pos hd, hx, hdown]
      push_cast
      ring
  · intro hy
    constructor
    · intro hd
      simp only [hittingCell, sign, if_pos hd, hy, hup]
    · intro hd
      simp only [hittingCell, sign, if_neg (by linarith : ¬(0 : ℚ) < (p2.sub p1).y),
        if_pos hd, hy, hdown]
      push_cast
      ring

/-- Witness for claim C3 at `p1 = (0,0)`, `p2 = (1,2)`, boundary `n = 1`. -/
theorem hittingCell_entering_witness :
    (0 : ℚ) < ((Vector2D.mk 1 2).sub ⟨0, 0⟩).x ∧
    (hittingCell ⟨0, 0⟩ ⟨1, 2⟩).x = ((1 : ℤ) : ℚ) := by
  refine ⟨by norm_num [Vector2D.sub], ?_⟩
  exact ((hittingCell_entering ⟨0, 0⟩ ⟨1, 2⟩ 1).1 (by norm_num)).1
    (by norm_num [Vector2D.sub])

/-- Claim C1 (amended): for every scene and every ray with non-zero
direction, `castRay` terminates — some fuel makes the embedded loop finish —
and the returned point either passed the occupancy stop test or lies at
squared distance at least `FAR_CLIPPING_PLANE ^ 2` from the origin (at or
beyond the far radius, not exactly at it). -/
theorem castRay_terminates (scene : Scene) (p1 p2 : Vector2D)
    (hd : p2.sub p1 ≠ Vector2D.zero) :
    ∃ fuel r, castRayFuel scene p1 p2 fuel = some r ∧
      ((∃ q, stopHit scene q r = true) ∨
        FAR_CLIPPING_PLANE ^ 2 ≤ p1.sqrDistanceTo r) := by
  have hd2 := sub_ne_zero_comps p1 p2 hd
  have hm : 0 < max |(p2.sub p1).x| |(p2.sub p1).y| := max_abs_pos _ hd2
  have ht0 : 0 < min (EPS / max |(p2.sub p1).x| |(p2.sub p1).y|) 1 :=
    lt_min (div_pos EPS_pos hm) one_pos
  have hQ : 0 < (p2.sub p1).x ^ 2 + (p2.sub p1).y ^ 2 := by
    rcases not_and_or.mp hd2 with h | h
    · have h1 : 0 < (p2.sub p1).x ^ 2 :=
        (sq_nonneg _).lt_of_ne (Ne.symm (pow_ne_zero 2 h))
      nlinarith [sq_nonneg (p2.sub p1).y]
    · have h1 : 0 < (p2.sub p1).y ^ 2 :=
        (sq_nonneg _).lt_of_ne (Ne.symm (pow_ne_zero 2 h))
      nlinarith [sq_nonneg (p2.sub p1).x]
  have hβ : 0 < ((p2.sub p1).x ^ 2 + (p2.sub p1).y ^ 2) *
      min (EPS / max |(p2.sub p1).x| |(p2.sub p1).y|) 1 ^ 2 :=
    mul_pos hQ (pow_pos ht0 2)
  obtain ⟨n, hn⟩ := exists_nat_ge (FAR_CLIPPING_PLANE ^ 2 /
    (((p2.sub p1).x ^ 2 + (p2.sub p1).y ^ 2) *
      min (EPS / max |(p2.sub p1).x| |(p2.sub p1).y|) 1 ^ 2))
  have h1 : FAR_CLIPPING_PLANE ^ 2 ≤
      (n : ℚ) * (((p2.sub p1).x ^ 2 + (p2.sub p1).y ^ 2) *
        min (EPS / max |(p2.sub p1).x| |(p2.sub p1).y|) 1 ^ 2) := by
    rw [div_le_iff₀ hβ] at hn
    linarith
  have hbound : FAR_CLIPPING_PLANE ^ 2 ≤
      ((p2.sub p1).x ^ 2 + (p2.sub p1).y ^ 2) *
        ((0 : ℚ) + (((n : ℕ) + 1 : ℕ) : ℚ) *
          min (EPS / max |(p2.sub p1).x| |(p2.sub p1).y|) 1) ^ 2 := by
    have hn0 : (0 : ℚ) ≤ (n : ℚ) := Nat.cast_nonneg n
    push_cast
    nlinarith [h1, hβ, mul_pos hβ hβ]
  obtain ⟨r, hr, hpost⟩ := castRayAux_reaches scene (p2.sub p1) hd2 (n + 1) 0 1
    p1 p1 p2 le_rfl (min_le_right _ _) (by ring) (by ring)
    (by simp only [Vector2D.sub]; ring) (by simp only [Vector2D.sub]; ring)
    hbound
  exact ⟨n + 2, r, hr, hpost⟩

/-- Witness for claim C1: the all-empty one-cell scene, ray from the origin
toward `(1, 0)`. -/
theorem castRay_terminates_witness :
    (Vector2D.mk 1 0).sub ⟨0, 0⟩ ≠ Vector2D.zero ∧
    ∃ fuel r, castRayFuel [[none]] ⟨0, 0⟩ ⟨1, 0⟩ fuel = some r ∧
      ((∃ q, stopHit [[none]] q r = true) ∨
        FAR_CLIPPING_PLANE ^ 2 ≤ (Vector2D.mk 0 0).sqrDistanceTo r) :=
  ⟨by simp [Vector2D.sub, Vector2D.zero],
   castRay_terminates [[none]] ⟨0, 0⟩ ⟨1, 0⟩
     (by simp [Vector2D.sub, Vector2D.zero])⟩

/-- Counterexample to claim C1 as stated: in an all-empty scene the ray from
`(5,5)` through `(6,5)` exits the loop at the sample `(18,5)`, whose distance
from the origin is `13`, not the far clipping radius `12` — the miss return
value is beyond the far radius, never exactly at it. -/
theorem castRay_far_exit_beyond_radius :
    castRayFuel [[none]] ⟨5, 5⟩ ⟨6, 5⟩ 20 = some ⟨18, 5⟩ ∧
    (Vector2D.mk 5 5).sqrDistanceTo ⟨18, 5⟩ ≠ FAR_CLIPPING_PLANE ^ 2 := by
  constructor
  · norm_num [castRayFuel, castRayAux, stopHit, hitTest, insideScene,
      lookupCellV, jsIndex, jsNotNull, sceneSize, hittingCell, rayStep, snap,
      sign, Vector2D.sub, Vector2D.sqrDistanceTo, Vector2D.sqrLength, EPS,
      FAR_CLIPPING_PLANE, NUMBER_MIN_VALUE, ceil_as_floor]
  · norm_num [Vector2D.sqrDistanceTo, Vector2D.sqrLength, Vector2D.sub,
      FAR_CLIPPING_PLANE]

/-- Claim C2: for a non-zero ray direction, the point `rayStep` returns is
at Euclidean distance from `p1` at least the distance from `p1` to `p2`
(the marcher never steps backward). -/
theorem rayStep_never_backward (p1 p2 : Vector2D) (hd : p2.sub p1 ≠ Vector2D.zero) :
    Real.sqrt ((p1.sqrDistanceTo p2 : ℚ) : ℝ) ≤
      Real.sqrt ((p1.sqrDistanceTo (rayStep p1 p2) : ℚ) : ℝ) := by
  have hd2 := sub_ne_zero_comps p1 p2 hd
  have hm : 0 < max |(p2.sub p1).x| |(p2.sub p1).y| := max_abs_pos _ hd2
  obtain ⟨t, ht, hrx, hry⟩ := rayStep_advance (p2.sub p1) hd2 p1 p2 1 one_pos
    (by simp only [Vector2D.sub]; ring) (by simp only [Vector2D.sub]; ring)
  have ht0 : 0 < t := lt_of_lt_of_le (div_pos EPS_pos hm) ht
  have hQ : p1.sqrDistanceTo p2 ≤ p1.sqrDistanceTo (rayStep p1 p2) := by
    simp only [Vector2D.sqrDistanceTo, Vector2D.sqrLength, Vector2D.sub, hrx, hry]
    nlinarith [ht0, sq_nonneg (p2.x - p1.x), sq_nonneg (p2.y - p1.y),
      mul_pos ht0 ht0]
  exact Real.sqrt_le_sqrt (by exact_mod_cast hQ)

/-- Witness for claim C2 at `p1 = (0,0)`, `p2 = (1,0)`. -/
theorem rayStep_never_backward_witness :
    (Vector2D.mk 1 0).sub ⟨0, 0⟩ ≠ Vector2D.zero ∧
    Real.sqrt (((Vector2D.mk 0 0).sqrDistanceTo ⟨1, 0⟩ : ℚ) : ℝ) ≤
      Real.sqrt (((Vector2D.mk 0 0).sqrDistanceTo (rayStep ⟨0, 0⟩ ⟨1, 0⟩) : ℚ) : ℝ) :=
  ⟨by simp [Vector2D.sub, Vector2D.zero],
   rayStep_never_backward ⟨0, 0⟩ ⟨1, 0⟩ (by simp [Vector2D.sub, Vector2D.zero])⟩

theorem foldl_max_len (w : ℕ) :
    ∀ (l : List (List (Option CellVal))) (q : ℚ),
      (∀ row ∈ l, row.length = w) →
      l.foldl (fun acc row => max acc (row.length : ℚ)) q =
        if l.isEmpty then q else max q w := by
  intro l
  induction l with
  | nil =>
    intro q _
    rfl
  | cons r t ih =>
    intro q h
    have hr : r.length = w := h r (List.mem_cons_self r t)
    have ht : ∀ row ∈ t, row.length = w := fun row hrow =>
      h row (List.mem_cons_of_mem r hrow)
    simp only [List.foldl_cons, hr, ih (max q (w : ℚ)) ht, List.isEmpty_cons]
    cases htE : t.isEmpty with
    | true => simp [htE]
    | false => simp [htE, max_assoc]

theorem sceneSize_x_rect (scene : Scene) (w : ℕ) (hw : 0 < w)
    (hrect : ∀ row ∈ scene, row.length = w) (hne : scene ≠ []) :
    (sceneSize scene).x = (w : ℚ) := by
  simp only [sceneSize]
  rw [foldl_max_len w scene NUMBER_MIN_VALUE hrect]
  have hE : scene.isEmpty = false := by
    simp [List.isEmpty_iff, hne]
  rw [hE, if_neg (by simp)]
  apply max_eq_right
  calc NUMBER_MIN_VALUE ≤ 1 := by norm_num [NUMBER_MIN_VALUE]
    _ ≤ (w : ℚ) := by exact_mod_cast hw

/-- Claim C4 (amended): every cell query during ray casting is guarded — a
cell point outside the scene bounds never passes the stop test (no hit, no
fault), and for a rectangular scene every in-bounds query reaches a stored
cell.  (As stated the claim fails: on a ragged scene a missing cell inside
the bounding box passes the `!== null` test and stops the ray like a solid
hit — see the counterexample.) -/
theorem insideScene_guards (scene : Scene) (c : Vector2D) :
    (insideScene scene c = false → hitTest scene c = false) ∧
    (isRectangular scene → insideScene scene c = true →
      ∃ v, lookupCellV scene c = some v) := by
  constructor
  · intro h
    simp [hitTest, h]
  · rintro ⟨w, hw, hrect⟩ hin
    simp only [insideScene, Bool.and_eq_true, decide_eq_true_eq] at hin
    obtain ⟨⟨⟨hx0, hxlt⟩, hy0⟩, hylt⟩ := hin
    have hne : scene ≠ [] := by
      intro he
      rw [he] at hylt
      simp only [sceneSize, List.length_nil, Nat.cast_zero] at hylt
      linarith
    have hx : (sceneSize scene).x = (w : ℚ) := sceneSize_x_rect scene w hw hrect hne
    rw [hx] at hxlt
    have hyf0 : 0 ≤ ⌊c.y⌋ := Int.floor_nonneg.mpr hy0
    have hylen : c.y < (scene.length : ℚ) := by
      simpa [sceneSize] using hylt
    have hyfl : ⌊c.y⌋ < (scene.length : ℤ) := Int.floor_lt.mpr (by exact_mod_cast hylen)
    have hyn : ⌊c.y⌋.toNat < scene.length := by omega
    obtain ⟨row, hrow⟩ : ∃ row, jsIndex scene ⌊c.y⌋ = some row := by
      refine ⟨scene.get ⟨⌊c.y⌋.toNat, hyn⟩, ?_⟩
      simp only [jsIndex, if_pos hyf0]
      exact List.get?_eq_get hyn
    have hmem : row ∈ scene := by
      have h2 : scene.get? ⌊c.y⌋.toNat = some row := by
        have h3 := hrow
        simp only [jsIndex, if_pos hyf0] at h3
        exact h3
      exact List.get?_mem h2
    have hrowlen : row.length = w := hrect row hmem
    have hxf0 : 0 ≤ ⌊c.x⌋ := Int.floor_nonneg.mpr hx0
    have hxfl : ⌊c.x⌋ < (w : ℤ) := Int.floor_lt.mpr (by exact_mod_cast hxlt)
    have hxn : ⌊c.x⌋.toNat < row.length := by
      rw [hrowlen]
      omega
    refine ⟨row.get ⟨⌊c.x⌋.toNat, hxn⟩, ?_⟩
    simp only [lookupCellV]
    rw [hrow]
    simp only [jsIndex, if_pos hxf0]
    exact List.get?_eq_get hxn

/-- Witness for claim C4 at a rectangular one-cell scene and the in-bounds
cell point `(0, 0)`. -/
theorem insideScene_guards_witness :
    isRectangular [[some (CellVal.color Color.red)]] ∧
    insideScene [[some (CellVal.color Color.red)]] ⟨0, 0⟩ = true ∧
    ∃ v, lookupCellV [[some (CellVal.color Color.red)]] ⟨0, 0⟩ = some v := by
  have hrect : isRectangular [[some (CellVal.color Color.red)]] :=
    ⟨1, one_pos, by simp⟩
  have hin : insideScene [[some (CellVal.color Color.red)]] ⟨0, 0⟩ = true := by
    norm_num [insideScene, sceneSize, NUMBER_MIN_VALUE]
  exact ⟨hrect, hin, (insideScene_guards _ _).2 hrect hin⟩

/-- Counterexample to claim C4 as stated: in the ragged scene
`[[null, null], [null]]`, which contains no solid cell at all, the missing
cell `(1, 1)` — inside the 2×2 bounding box but beyond the stored second
row — passes the `!== null` stop test, so `castRay` halts at its very first
sample `(3/2, 3/2)` as if it had hit a wall, instead of treating the missing
cell as "no hit" and marching on to the far radius. -/
theorem castRay_missing_cell_stops_ray :
    castRayFuel [[none, none], [none]] ⟨1/2, 3/2⟩ ⟨3/2, 3/2⟩ 5 =
      some ⟨3/2, 3/2⟩ ∧
    insideScene [[none, none], [none]]
      (hittingCell ⟨1/2, 3/2⟩ ⟨3/2, 3/2⟩) = true ∧
    lookupCellV [[none, none], [none]]
      (hittingCell ⟨1/2, 3/2⟩ ⟨3/2, 3/2⟩) = none := by
  refine ⟨?_, ?_, ?_⟩ <;>
    norm_num [castRayFuel, castRayAux, stopHit, hitTest, insideScene,
      lookupCellV, jsIndex, jsNotNull, sceneSize, hittingCell, sign,
      Vector2D.sub, Vector2D.sqrDistanceTo, Vector2D.sqrLength, EPS,
      FAR_CLIPPING_PLANE, NUMBER_MIN_VALUE]

/-- Claim C6 (the code violates the spec here): with a degenerate zero ray
direction `p2 - p1 = (0,0)` over an empty cell, `castRay` silently loops
forever — the loop state is a fixpoint and the distance guard stays true, so
no amount of fuel finishes the loop, and the source has no guarding
assertion. -/
theorem castRay_zero_direction_diverges :
    ∀ fuel : ℕ,
      castRayFuel [[none]] ⟨1/2, 1/2⟩ ⟨1/2, 1/2⟩ fuel = none := by
  have hg : (Vector2D.mk (1/2) (1/2)).sqrDistanceTo ⟨1/2, 1/2⟩ <
      FAR_CLIPPING_PLANE ^ 2 := by
    norm_num [Vector2D.sqrDistanceTo, Vector2D.sqrLength, Vector2D.sub,
      FAR_CLIPPING_PLANE]
  have hs : stopHit [[none]] ⟨1/2, 1/2⟩ ⟨1/2, 1/2⟩ = false := by
    norm_num [stopHit, hitTest, insideScene, lookupCellV, jsIndex, jsNotNull,
      sceneSize, hittingCell, sign, Vector2D.sub, NUMBER_MIN_VALUE, EPS]
  exact castRayAux_stuck _ _ _ hg hs

theorem renderColumn_some_eq (scene : Scene) (H : ℚ)
    (pos fwd pA pB : Vector2D) (stripWidth : ℚ) (stripCount x fuel : ℕ)
    (rect : Rect)
    (h : renderColumn scene H pos fwd pA pB stripWidth stripCount x fuel =
      some rect) :
    ∃ p, castRayFuel scene pos (pA.lerp pB ((x : ℚ) / stripCount)) fuel =
        some p ∧
      rect = ⟨(x : ℚ) * stripWidth - 1,
              (H - H / ((p.sub pos).dot fwd)) * (1/2),
              stripWidth + 1,
              H / ((p.sub pos).dot fwd)⟩ := by
  unfold renderColumn at h
  split at h
  · exact absurd h (by simp)
  · rename_i p hp
    dsimp only at h
    split at h
    · split at h
      · rename_i cell heq
        refine ⟨p, hp, ?_⟩
        exact (Option.some.injEq _ _).mp h.symm
      · exact absurd h (by simp)
    · exact absurd h (by simp)

/-- Claim C5: for every column that draws (the ray hit a non-empty cell),
the strip height the code computes is the screen height divided by the
signed view-axis depth `dot(hit - pos, fwd)` (the spec's `specDepth`), not
by the Euclidean ray length; in particular a hit exactly along a unit
forward axis at view distance `t > 0` gives strip height `H / t`. -/
theorem stripHeight_view_axis_depth :
    (∀ (scene : Scene) (H : ℚ) (pos fwd pA pB : Vector2D) (stripWidth : ℚ)
        (stripCount x fuel : ℕ) (rect : Rect),
      renderColumn scene H pos fwd pA pB stripWidth stripCount x fuel =
        some rect →
      ∃ p, castRayFuel scene pos (pA.lerp pB ((x : ℚ) / stripCount)) fuel =
          some p ∧
        rect.h = H / specDepth pos p fwd) ∧
    (∀ (H t : ℚ) (pos fwd : Vector2D), fwd.sqrLength = 1 → 0 < t →
      H / specDepth pos (pos.add (fwd.scale t)) fwd = H / t) := by
  constructor
  · intro scene H pos fwd pA pB stripWidth stripCount x fuel rect h
    obtain ⟨p, hp, hrect⟩ := renderColumn_some_eq scene H pos fwd pA pB
      stripWidth stripCount x fuel rect h
    exact ⟨p, hp, by rw [hrect]; rfl⟩
  · intro H t pos fwd hunit ht
    have hdep : specDepth pos (pos.add (fwd.scale t)) fwd = t := by
      simp only [specDepth, Vector2D.add, Vector2D.scale, Vector2D.sub,
        Vector2D.dot, Vector2D.sqrLength] at hunit ⊢
      linear_combination t * hunit
    rw [hdep]

/-- Witness for claim C5: the unit forward axis `(1, 0)` at view distance
`2` with screen height `100`. -/
theorem stripHeight_view_axis_depth_witness :
    (Vector2D.mk 1 0).sqrLength = 1 ∧ (0 : ℚ) < 2 ∧
    (100 : ℚ) / specDepth ⟨3, 4⟩
      ((Vector2D.mk 3 4).add ((Vector2D.mk 1 0).scale 2)) ⟨1, 0⟩ = 100 / 2 :=
  ⟨by norm_num [Vector2D.sqrLength], by norm_num,
   stripHeight_view_axis_depth.2 100 2 ⟨3, 4⟩ ⟨1, 0⟩
     (by norm_num [Vector2D.sqrLength]) (by norm_num)⟩

/-- Claim C7 (amended): a drawn solid-color column fills the rectangle with
top-left corner `(i * columnWidth - 1, (screenHeight - stripHeight) / 2)` —
the x coordinate is one pixel left of `i * columnWidth` — width
`columnWidth + 1` and the computed strip height. -/
theorem renderColumn_rect_formula (scene : Scene) (H : ℚ)
    (pos fwd pA pB : Vector2D) (stripWidth : ℚ) (stripCount x fuel : ℕ)
    (rect : Rect)
    (h : renderColumn scene H pos fwd pA pB stripWidth stripCount x fuel =
      some rect) :
    ∃ p, castRayFuel scene pos (pA.lerp pB ((x : ℚ) / stripCount)) fuel =
        some p ∧
      rect = ⟨(x : ℚ) * stripWidth - 1,
              (H - H / ((p.sub pos).dot fwd)) * (1/2),
              stripWidth + 1,
              H / ((p.sub pos).dot fwd)⟩ :=
  renderColumn_some_eq scene H pos fwd pA pB stripWidth stripCount x fuel rect h

/-- Witness for claim C7: a one-cell red scene, column `2` of `4`, column
width `10`, screen height `100`; the drawn rectangle is
`(19, -150, 11, 400)`. -/
theorem renderColumn_rect_formula_witness :
    renderColumn [[some (CellVal.color Color.red)]] 100 ⟨1/4, 1/4⟩ ⟨1, 0⟩
        ⟨0, 0⟩ ⟨1, 1⟩ 10 4 2 1 = some ⟨19, -150, 11, 400⟩ ∧
    ∃ p, castRayFuel [[some (CellVal.color Color.red)]] ⟨1/4, 1/4⟩
        (Vector2D.lerp ⟨0, 0⟩ ⟨1, 1⟩ (((2 : ℕ) : ℚ) / ((4 : ℕ) : ℚ))) 1 =
        some p ∧
      (Rect.mk 19 (-150) 11 400) =
        ⟨((2 : ℕ) : ℚ) * 10 - 1,
         (100 - 100 / ((p.sub ⟨1/4, 1/4⟩).dot ⟨1, 0⟩)) * (1/2),
         10 + 1,
         100 / ((p.sub ⟨1/4, 1/4⟩).dot ⟨1, 0⟩)⟩ := by
  have h : renderColumn [[some (CellVal.color Color.red)]] 100 ⟨1/4, 1/4⟩
      ⟨1, 0⟩ ⟨0, 0⟩ ⟨1, 1⟩ 10 4 2 1 = some ⟨19, -150, 11, 400⟩ := by
    norm_num [renderColumn, castRayFuel, castRayAux, stopHit, hitTest,
      insideScene, lookupCellV, jsIndex, jsNotNull, sceneSize, hittingCell,
      sign, Vector2D.sub, Vector2D.dot, Vector2D.lerp, Vector2D.add,
      Vector2D.scale, Vector2D.sqrDistanceTo, Vector2D.sqrLength, EPS,
      FAR_CLIPPING_PLANE, NUMBER_MIN_VALUE]
  exact ⟨h, renderColumn_rect_formula _ 100 _ _ _ _ 10 4 2 1 _ h⟩

/-- Counterexample to claim C7 as stated: the same drawn column has its
rectangle corner at x coordinate `19 = 2 * 10 - 1`, not at
`i * columnWidth = 20` — the source passes `x * stripWidth - 1` to
`fillRect`. -/
theorem renderColumn_rect_x_off_by_one :
    renderColumn [[some (CellVal.color Color.red)]] 100 ⟨1/4, 1/4⟩ ⟨1, 0⟩
        ⟨0, 0⟩ ⟨1, 1⟩ 10 4 2 1 = some ⟨19, -150, 11, 400⟩ ∧
    (19 : ℚ) ≠ (2 : ℚ) * 10 := by
  constructor
  · norm_num [renderColumn, castRayFuel, castRayAux, stopHit, hitTest,
      insideScene, lookupCellV, jsIndex, jsNotNull, sceneSize, hittingCell,
      sign, Vector2D.sub, Vector2D.dot, Vector2D.lerp, Vector2D.add,
      Vector2D.scale, Vector2D.sqrDistanceTo, Vector2D.sqrLength, EPS,
      FAR_CLIPPING_PLANE, NUMBER_MIN_VALUE]
  · norm_num

/-- Claim C8: normalizing the zero vector returns the zero vector, with no
division by zero (the zero test short-circuits before the scale). -/
theorem norm_zero_vector : Vector2R.norm ⟨0, 0⟩ = ⟨0, 0⟩ := by
  have h : (Vector2R.mk 0 0).length = 0 := by
    simp [Vector2R.length]
  rw [Vector2R.norm, if_pos h]
  rfl

/-- Claim C9: for channels in `[0, 1]` and any factor, `brightness` keeps
the r, g, b channels in `[0, 1]` and leaves the alpha channel unchanged. -/
theorem brightness_range (c : Color) (f : ℚ)
    (hr0 : 0 ≤ c.r) (hr1 : c.r ≤ 1) (hg0 : 0 ≤ c.g) (hg1 : c.g ≤ 1)
    (hb0 : 0 ≤ c.b) (hb1 : c.b ≤ 1) :
    (0 ≤ (c.brightness f).r ∧ (c.brightness f).r ≤ 1) ∧
    (0 ≤ (c.brightness f).g ∧ (c.brightness f).g ≤ 1) ∧
    (0 ≤ (c.brightness f).b ∧ (c.brightness f).b ≤ 1) ∧
    (c.brightness f).a = c.a := by
  simp only [Color.brightness]
  rw [apply_ite Color.r, apply_ite Color.g, apply_ite Color.b, apply_ite Color.a]
  dsimp only
  rw [ite_self]
  generalize hG : (if 1 < f then (1 : ℚ) else if f < -1 then -1 else f) = G
  have hm : -1 ≤ G := by
    rw [← hG]
    split_ifs <;> linarith
  have hp : G ≤ 1 := by
    rw [← hG]
    split_ifs <;> linarith
  refine ⟨⟨?_, ?_⟩, ⟨?_, ?_⟩, ⟨?_, ?_⟩, rfl⟩ <;> split_ifs with hf <;> nlinarith

/-- Witness for claim C9 at `Color.red` and factor `2`. -/
theorem brightness_range_witness :
    (0 ≤ (Color.red.brightness 2).r ∧ (Color.red.brightness 2).r ≤ 1) ∧
    (0 ≤ (Color.red.brightness 2).g ∧ (Color.red.brightness 2).g ≤ 1) ∧
    (0 ≤ (Color.red.brightness 2).b ∧ (Color.red.brightness 2).b ≤ 1) ∧
    (Color.red.brightness 2).a = Color.red.a :=
  brightness_range Color.red 2 (by norm_num [Color.red]) (by norm_num [Color.red])
    (by norm_num [Color.red]) (by norm_num [Color.red]) (by norm_num [Color.red])
    (by norm_num [Color.red])

/-- Claim C10: when the cell attributed to the initial sample is inside the
scene and non-empty, `castRay` returns the initial sample `p2` with zero
marching steps, for any fuel and regardless of the distance between `p1` and
`p2` (the distance guard compares `p1` with itself on entry). -/
theorem castRay_initial_solid_hit (scene : Scene) (p1 p2 : Vector2D)
    (v : CellVal) (fuel : ℕ)
    (hin : insideScene scene (hittingCell p1 p2) = true)
    (hcell : lookupCellV scene (hittingCell p1 p2) = some (some v)) :
    castRayFuel scene p1 p2 (fuel + 1) = some p2 := by
  have hg : p1.sqrDistanceTo p1 < FAR_CLIPPING_PLANE ^ 2 := by
    norm_num [Vector2D.sqrDistanceTo, Vector2D.sqrLength, Vector2D.sub,
      FAR_CLIPPING_PLANE]
  have hs : stopHit scene p1 p2 = true := by
    simp [stopHit, hitTest, hin, hcell, jsNotNull]
  rw [castRayFuel, castRayAux, if_pos hg, if_pos hs]

/-- Witness for claim C10: a solid cell under the initial sample with the
ray origin more than the far radius away. -/
theorem castRay_initial_solid_hit_witness :
    insideScene [[some (CellVal.color Color.red)]]
      (hittingCell ⟨-20, -20⟩ ⟨1/2, 1/2⟩) = true ∧
    lookupCellV [[some (CellVal.color Color.red)]]
      (hittingCell ⟨-20, -20⟩ ⟨1/2, 1/2⟩) = some (some (CellVal.color Color.red)) ∧
    castRayFuel [[some (CellVal.color Color.red)]] ⟨-20, -20⟩ ⟨1/2, 1/2⟩ 1 =
      some ⟨1/2, 1/2⟩ := by
  have hin : insideScene [[some (CellVal.color Color.red)]]
      (hittingCell ⟨-20, -20⟩ ⟨1/2, 1/2⟩) = true := by
    norm_num [insideScene, sceneSize, hittingCell, sign, Vector2D.sub,
      NUMBER_MIN_VALUE, EPS]
  have hcell : lookupCellV [[some (CellVal.color Color.red)]]
      (hittingCell ⟨-20, -20⟩ ⟨1/2, 1/2⟩) = some (some (CellVal.color Color.red)) := by
    norm_num [lookupCellV, jsIndex, hittingCell, sign, Vector2D.sub, EPS]
  exact ⟨hin, hcell,
    castRay_initial_solid_hit _ _ _ (CellVal.color Color.red) 0 hin hcell⟩

end Raycasting
